import Mathlib

/-!
Shallow embedding of the triple-slit wave interference renderer
(`src/App.jsx`, two variants of the `WavePattern` component).

JavaScript numbers are modelled exactly: grid geometry and slit coordinates
as rationals, the trigonometric field as real numbers. Grid cells are
addressed by natural row and column indices, as in the source's loops.
-/

namespace WaveSpec

/-- Color of a rendered character cell: no explicit color (empty style
object), a hex color string, or an hsl triple (hue, saturation, lightness). -/
inductive ColorVal where
  | unset : ColorVal
  | hex : String → ColorVal
  | hsl : ℕ → ℕ → ℝ → ColorVal

/-- One character cell of the rendered grid: the glyph and its color. -/
structure Cell where
  ch : Char
  color : ColorVal

/-- One slit (wave source) with grid coordinates. Coordinates are exact
rationals: most layouts floor them to integers, but the first variant's
mobile layout keeps the fractional offsets `centerCol ± 0.3·cols`. -/
structure Slit where
  x : ℚ
  y : ℚ

instance : Inhabited Slit := ⟨⟨0, 0⟩⟩

/-- Grid Sizer, column count: `Math.floor(width / 7.2)`. -/
def gridCols (w : ℚ) : ℤ := ⌊w / 7.2⌋

/-- Grid Sizer, row count: `Math.floor(height / 12)`. -/
def gridRows (h : ℚ) : ℤ := ⌊h / 12⌋

/-- Slit positions of variant 1 in the mobile (top-to-bottom) layout:
`slitPosition = floor(rows / 3)`, outer x offsets are NOT floored. -/
def slitsV1Mobile (cols rows : ℕ) : List Slit :=
  let slitPosition : ℤ := ⌊(rows : ℚ) / 3⌋
  let slitSeparation : ℚ := 0.3 * cols
  let centerCol : ℤ := ⌊(cols : ℚ) / 2⌋
  [⟨(centerCol : ℚ) - slitSeparation, (slitPosition : ℚ)⟩,
   ⟨(centerCol : ℚ), (slitPosition : ℚ)⟩,
   ⟨(centerCol : ℚ) + slitSeparation, (slitPosition : ℚ)⟩]

/-- Slit positions of variant 1 in the desktop (left-to-right) layout:
`slitPosition = floor(cols / 4)`, each y floored. -/
def slitsV1Desktop (cols rows : ℕ) : List Slit :=
  let slitPosition : ℤ := ⌊(cols : ℚ) / 4⌋
  let slitSeparation : ℚ := 0.3 * rows
  [⟨(slitPosition : ℚ), (⌊(rows : ℚ) / 2 - slitSeparation⌋ : ℤ)⟩,
   ⟨(slitPosition : ℚ), (⌊(rows : ℚ) / 2⌋ : ℤ)⟩,
   ⟨(slitPosition : ℚ), (⌊(rows : ℚ) / 2 + slitSeparation⌋ : ℤ)⟩]

/-- Slit positions of variant 2 in the vertical layout:
`slitPosition = floor(rows / 2)`, each x floored. -/
def slitsV2Vertical (cols rows : ℕ) : List Slit :=
  let slitPosition : ℤ := ⌊(rows : ℚ) / 2⌋
  let slitSeparation : ℚ := 0.3 * cols
  [⟨(⌊(cols : ℚ) / 2 - slitSeparation⌋ : ℤ), (slitPosition : ℚ)⟩,
   ⟨(⌊(cols : ℚ) / 2⌋ : ℤ), (slitPosition : ℚ)⟩,
   ⟨(⌊(cols : ℚ) / 2 + slitSeparation⌋ : ℤ), (slitPosition : ℚ)⟩]

/-- Slit positions of variant 2 in the horizontal layout:
`slitPosition = floor(cols / 1.5)`, each y floored. -/
def slitsV2Horizontal (cols rows : ℕ) : List Slit :=
  let slitPosition : ℤ := ⌊(cols : ℚ) / 1.5⌋
  let slitSeparation : ℚ := 0.3 * rows
  [⟨(slitPosition : ℚ), (⌊(rows : ℚ) / 2 - slitSeparation⌋ : ℤ)⟩,
   ⟨(slitPosition : ℚ), (⌊(rows : ℚ) / 2⌋ : ℤ)⟩,
   ⟨(slitPosition : ℚ), (⌊(rows : ℚ) / 2 + slitSeparation⌋ : ℤ)⟩]

/-- Fixed ordered glyph palette, sparsest to densest (16 characters). -/
def asciiChars : List Char :=
  [' ', '.', '=', '+', '*', '#', '%', '@', 'Y', 'R', 'A', 'N', 'E', 'M', 'U', 'L']

/-- Wall cell map entry for cell (r, c): on the barrier line a solid glyph
or a blank gap (within radius 4 of a slit x in vertical flow, radius 2 of a
slit y in horizontal flow), a blank on the source side, `none` for
field-region cells. Both variants build the wall the same way. -/
def createWall (isVert : Bool) (slitPosition : ℤ) (slits : List Slit)
    (r c : ℕ) : Option Cell :=
  let isWallPoint : Bool :=
    if isVert then decide ((r : ℤ) = slitPosition) else decide ((c : ℤ) = slitPosition)
  if isWallPoint then
    let isSlit : Bool := slits.any fun slit =>
      if isVert then decide (|(c : ℚ) - slit.x| < 4) else decide (|(r : ℚ) - slit.y| < 2)
    some ⟨if isSlit then ' ' else (if isVert then '━' else '┃'), ColorVal.hex "#fdf6e3"⟩
  else
    let isSourceSide : Bool :=
      if isVert then decide ((r : ℤ) < slitPosition) else decide ((c : ℤ) < slitPosition)
    if isSourceSide then some ⟨' ', ColorVal.unset⟩ else none

/-- Euclidean distance from cell (r, c) to a slit, in grid units: one entry
`distGrid[r][c]` of the distance cache built by `precomputeDistances`. -/
noncomputable def slitDistance (slit : Slit) (r c : ℕ) : ℝ :=
  let dx : ℝ := (c : ℝ) - (slit.x : ℝ)
  let dy : ℝ := (r : ℝ) - (slit.y : ℝ)
  Real.sqrt (dx * dx + dy * dy)

/-- Wavenumber of variant 1: `(1.5 * Math.PI) / 10`. -/
noncomputable def kV1 : ℝ := 1.5 * Real.pi / 10

/-- Wave speed of variant 1. -/
noncomputable def waveSpeedV1 : ℝ := 1

/-- Wavenumber of variant 2: `(2 * Math.PI) / 10`. -/
noncomputable def kV2 : ℝ := 2 * Real.pi / 10

/-- Wave speed of variant 2. -/
noncomputable def waveSpeedV2 : ℝ := 1.5

/-- Total amplitude at cell (r, c) at clock value t in variant 1: the
`forEach` accumulation over the slits, starting from 0, of
`Math.sin(k*d - speed*t) / Math.max(1, d * 1.5)`. -/
noncomputable def totalAmplitudeV1 (slits : List Slit) (r c : ℕ) (t : ℝ) : ℝ :=
  slits.foldl (fun acc slit =>
    let distance := slitDistance slit r c
    let phase := kV1 * distance - waveSpeedV1 * t
    acc + Real.sin phase / max 1 (distance * 1.5)) 0

/-- Total amplitude at cell (r, c) at clock value t in variant 2: the
`forEach` accumulation over the slits, starting from 0, of
`Math.sin(k*d - speed*t) / Math.max(1, d)`. -/
noncomputable def totalAmplitudeV2 (slits : List Slit) (r c : ℕ) (t : ℝ) : ℝ :=
  slits.foldl (fun acc slit =>
    let distance := slitDistance slit r c
    let phase := kV2 * distance - waveSpeedV2 * t
    acc + Real.sin phase / max 1 distance) 0

/-- Intensity of an amplitude: `totalAmplitude * totalAmplitude`. -/
noncomputable def intensity (a : ℝ) : ℝ := a * a

/-- Clamped intensity: `Math.min(1, Math.max(0, gain * intensity))`, with
gain 50 in variant 1 and 40 in variant 2. -/
noncomputable def clampedIntensity (gain a : ℝ) : ℝ :=
  min 1 (max 0 (gain * intensity a))

/-- Palette index: `Math.floor(clampedIntensity * (asciiChars.length - 1))`. -/
noncomputable def charIndex (ci : ℝ) : ℤ := ⌊ci * ((asciiChars.length : ℝ) - 1)⌋

/-- Host environment visible to the animation callback: the stream of values
the host's random number generator would return, indexed by draw. The wave
code never draws from it; it is threaded through so independence from it can
be stated. -/
structure HostEnv where
  random : ℕ → ℝ

/-- Field Model output for a field-region cell, variant 1: palette glyph by
clamped intensity, hsl color with hue 180 for positive amplitude and 30
otherwise, lightness `20 + ci^0.8 * 50`. -/
noncomputable def fieldCellV1 (env : HostEnv) (slits : List Slit) (r c : ℕ) (t : ℝ) : Cell :=
  let totalAmplitude := totalAmplitudeV1 slits r c t
  let ci := clampedIntensity 50 totalAmplitude
  let idx := charIndex ci
  let hue : ℕ := if 0 < totalAmplitude then 180 else 30
  let lightness : ℝ := 20 + ci ^ (0.8 : ℝ) * 50
  ⟨asciiChars.getD idx.toNat ' ', ColorVal.hsl hue 90 lightness⟩

/-- Field Model output for a field-region cell, variant 2: palette glyph by
clamped intensity, hsl color with hue 40 for positive amplitude and 0
otherwise, lightness `30 + ci^0.7 * 50`. -/
noncomputable def fieldCellV2 (env : HostEnv) (slits : List Slit) (r c : ℕ) (t : ℝ) : Cell :=
  let totalAmplitude := totalAmplitudeV2 slits r c t
  let ci := clampedIntensity 40 totalAmplitude
  let idx := charIndex ci
  let hue : ℕ := if 0 < totalAmplitude then 40 else 0
  let lightness : ℝ := 30 + ci ^ (0.7 : ℝ) * 50
  ⟨asciiChars.getD idx.toNat ' ', ColorVal.hsl hue 90 lightness⟩

/-- Per-cell render step of variant 1's `animate`: the wall entry when the
wall map has one, otherwise the Field Model output. -/
noncomputable def renderCellV1 (env : HostEnv) (isVert : Bool) (slitPosition : ℤ)
    (slits : List Slit) (r c : ℕ) (t : ℝ) : Cell :=
  match createWall isVert slitPosition slits r c with
  | some w => w
  | none => fieldCellV1 env slits r c t

/-- Per-cell render step of variant 2's `animate`. -/
noncomputable def renderCellV2 (env : HostEnv) (isVert : Bool) (slitPosition : ℤ)
    (slits : List Slit) (r c : ℕ) (t : ℝ) : Cell :=
  match createWall isVert slitPosition slits r c with
  | some w => w
  | none => fieldCellV2 env slits r c t

/-- One full frame of variant 1: the row-major grid of rendered cells
written to the display surface in one `animate` pass. -/
noncomputable def frameV1 (env : HostEnv) (isVert : Bool) (slitPosition : ℤ)
    (slits : List Slit) (cols rows : ℕ) (t : ℝ) : List (List Cell) :=
  (List.range rows).map fun r => (List.range cols).map fun c =>
    renderCellV1 env isVert slitPosition slits r c t

/-- One full frame of variant 2. -/
noncomputable def frameV2 (env : HostEnv) (isVert : Bool) (slitPosition : ℤ)
    (slits : List Slit) (cols rows : ℕ) (t : ℝ) : List (List Cell) :=
  (List.range rows).map fun r => (List.range cols).map fun c =>
    renderCellV2 env isVert slitPosition slits r c t

/-- Hue component of a cell's color, if the color is an hsl triple. -/
def hueOf (cell : Cell) : Option ℕ :=
  match cell.color with
  | ColorVal.hsl h _ _ => some h
  | _ => none

/-- C2: the Grid Sizer computes columns = floor(pixelWidth / 7.2) and
rows = floor(pixelHeight / 12), and each count is zero when the
corresponding pixel dimension is zero. -/
theorem gridDims_floor_and_zero (w h : ℚ) :
    gridCols w = ⌊w / 7.2⌋ ∧ gridRows h = ⌊h / 12⌋ ∧
    (w = 0 → gridCols w = 0) ∧ (h = 0 → gridRows h = 0) := by
  refine ⟨rfl, rfl, ?_, ?_⟩ <;> rintro rfl <;> simp [gridCols, gridRows]

/-- Witness for the zero cases of the Grid Sizer theorem at width 0 and
height 0. -/
theorem gridDims_floor_and_zero_witness :
    gridCols 0 = 0 ∧ gridRows 0 = 0 :=
  ⟨(gridDims_floor_and_zero 0 0).2.2.1 rfl, (gridDims_floor_and_zero 0 0).2.2.2 rfl⟩

/-- C4: intensity is a square hence non-negative, and the clamped intensity
lies in [0, 1] for every amplitude value, with both variants' gains
(50 and 40). -/
theorem intensity_clamp_bounds (a : ℝ) :
    0 ≤ intensity a ∧
    (0 ≤ clampedIntensity 50 a ∧ clampedIntensity 50 a ≤ 1) ∧
    (0 ≤ clampedIntensity 40 a ∧ clampedIntensity 40 a ≤ 1) := by
  refine ⟨mul_self_nonneg a, ⟨?_, min_le_left _ _⟩, ⟨?_, min_le_left _ _⟩⟩ <;>
    exact le_min zero_le_one (le_max_left 0 _)

/-- C5: for clamped intensity in [0, 1] the palette index lies within the
16-character palette (0 ≤ index ≤ N−1, so the lookup never goes out of
range, including at both extremes), and the index is monotonically
non-decreasing in the clamped intensity. -/
theorem charIndex_range_and_mono (x y : ℝ) :
    (0 ≤ x → x ≤ 1 →
      0 ≤ charIndex x ∧ charIndex x ≤ (asciiChars.length : ℤ) - 1 ∧
      (charIndex x).toNat < asciiChars.length) ∧
    (x ≤ y → charIndex x ≤ charIndex y) := by
  have hlen : asciiChars.length = 16 := rfl
  constructor
  · intro h0 h1
    have hcast : ((asciiChars.length : ℝ) - 1) = 15 := by rw [hlen]; norm_num
    have hge : 0 ≤ charIndex x := by
      apply Int.le_floor.mpr
      rw [hcast]
      push_cast
      positivity
    have hle : charIndex x ≤ 15 := by
      have hb : x * ((asciiChars.length : ℝ) - 1) ≤ 15 := by rw [hcast]; nlinarith
      calc charIndex x ≤ ⌊(15 : ℝ)⌋ := Int.floor_le_floor hb
        _ = 15 := by norm_num
    refine ⟨hge, by omega, by omega⟩
  · intro hxy
    apply Int.floor_le_floor
    have hnn : (0 : ℝ) ≤ (asciiChars.length : ℝ) - 1 := by rw [hlen]; norm_num
    exact mul_le_mul_of_nonneg_right hxy hnn

/-- Witness for the palette-index theorem at clamped intensities 1/2 and 1. -/
theorem charIndex_range_and_mono_witness :
    0 ≤ charIndex (1/2 : ℝ) ∧ charIndex (1/2 : ℝ) ≤ (asciiChars.length : ℤ) - 1 ∧
    (charIndex (1/2 : ℝ)).toNat < asciiChars.length ∧
    charIndex (1/2 : ℝ) ≤ charIndex 1 :=
  ⟨((charIndex_range_and_mono (1/2) 1).1 (by norm_num) (by norm_num)).1,
   ((charIndex_range_and_mono (1/2) 1).1 (by norm_num) (by norm_num)).2.1,
   ((charIndex_range_and_mono (1/2) 1).1 (by norm_num) (by norm_num)).2.2,
   (charIndex_range_and_mono (1/2) 1).2 (by norm_num)⟩

/-- C1: at every cell and clock value, the accumulated total amplitude over
the three sources is the plain sum of the per-source contributions
sin(k·d_i − s·t) / max(1, d_i·att), with att = 1.5 in variant 1 and
att = 1.0 in variant 2. -/
theorem totalAmplitude_is_sum (s₁ s₂ s₃ : Slit) (r c : ℕ) (t : ℝ) :
    totalAmplitudeV1 [s₁, s₂, s₃] r c t =
      Real.sin (kV1 * slitDistance s₁ r c - waveSpeedV1 * t) / max 1 (slitDistance s₁ r c * 1.5) +
      Real.sin (kV1 * slitDistance s₂ r c - waveSpeedV1 * t) / max 1 (slitDistance s₂ r c * 1.5) +
      Real.sin (kV1 * slitDistance s₃ r c - waveSpeedV1 * t) / max 1 (slitDistance s₃ r c * 1.5) ∧
    totalAmplitudeV2 [s₁, s₂, s₃] r c t =
      Real.sin (kV2 * slitDistance s₁ r c - waveSpeedV2 * t) / max 1 (slitDistance s₁ r c * 1.0) +
      Real.sin (kV2 * slitDistance s₂ r c - waveSpeedV2 * t) / max 1 (slitDistance s₂ r c * 1.0) +
      Real.sin (kV2 * slitDistance s₃ r c - waveSpeedV2 * t) / max 1 (slitDistance s₃ r c * 1.0) := by
  constructor <;>
    simp [totalAmplitudeV1, totalAmplitudeV2, List.foldl, mul_one] <;> ring

/-- C8: determinism. For fixed geometry, orientation, slits, wave constants
and clock value, the rendered frame does not depend on the host environment
(its random stream): two evaluations under different environments yield the
identical glyph and color at every cell, in both variants. -/
theorem frame_deterministic (e₁ e₂ : HostEnv) (isVert : Bool) (slitPosition : ℤ)
    (slits : List Slit) (cols rows : ℕ) (t : ℝ) :
    frameV1 e₁ isVert slitPosition slits cols rows t =
      frameV1 e₂ isVert slitPosition slits cols rows t ∧
    frameV2 e₁ isVert slitPosition slits cols rows t =
      frameV2 e₂ isVert slitPosition slits cols rows t :=
  ⟨rfl, rfl⟩

/-- C6: wall cells are static. Whenever the Wall Cell Map marks a cell, the
rendered cell is exactly that wall entry at every clock value in both
variants (the wave computation is bypassed); and every barrier-gap cell (on
the barrier line, within the slit radius of some slit) holds the blank
glyph. -/
theorem wall_cells_static :
    (∀ (env : HostEnv) (isVert : Bool) (slitPosition : ℤ) (slits : List Slit)
      (r c : ℕ) (w : Cell) (t : ℝ),
      createWall isVert slitPosition slits r c = some w →
      renderCellV1 env isVert slitPosition slits r c t = w ∧
      renderCellV2 env isVert slitPosition slits r c t = w) ∧
    (∀ (isVert : Bool) (slitPosition : ℤ) (slits : List Slit) (r c : ℕ),
      (if isVert then (r : ℤ) = slitPosition else (c : ℤ) = slitPosition) →
      (slits.any fun slit =>
        if isVert then decide (|(c : ℚ) - slit.x| < 4)
        else decide (|(r : ℚ) - slit.y| < 2)) = true →
      createWall isVert slitPosition slits r c = some ⟨' ', ColorVal.hex "#fdf6e3"⟩) := by
  constructor
  · intro env isVert slitPosition slits r c w t h
    constructor <;> simp [renderCellV1, renderCellV2, h]
  · intro isVert slitPosition slits r c hwall hslit
    cases isVert <;> simp_all [createWall]

/-- Witness for the wall-cell theorem: a gap cell of a horizontal wall at
column 2 renders as the blank wall entry at two clock values. -/
theorem wall_cells_static_witness :
    createWall false 2 [⟨2, 0⟩] 0 2 = some ⟨' ', ColorVal.hex "#fdf6e3"⟩ ∧
    renderCellV1 ⟨fun _ => 0⟩ false 2 [⟨2, 0⟩] 0 2 0 = ⟨' ', ColorVal.hex "#fdf6e3"⟩ ∧
    renderCellV2 ⟨fun _ => 0⟩ false 2 [⟨2, 0⟩] 0 2 1 = ⟨' ', ColorVal.hex "#fdf6e3"⟩ := by
  have hw : createWall false 2 [⟨2, 0⟩] 0 2 = some ⟨' ', ColorVal.hex "#fdf6e3"⟩ :=
    wall_cells_static.2 false 2 [⟨2, 0⟩] 0 2 (by decide) (by norm_num)
  exact ⟨hw, (wall_cells_static.1 ⟨fun _ => 0⟩ false 2 [⟨2, 0⟩] 0 2 _ 0 hw).1,
    (wall_cells_static.1 ⟨fun _ => 0⟩ false 2 [⟨2, 0⟩] 0 2 _ 1 hw).2⟩

/-- C7: degenerate geometry. When the grid has zero columns or zero rows,
the rendered frame contains no cells at all, in both variants; producing
the frame is a total operation, so nothing is raised. -/
theorem empty_grid_renders_nothing (env : HostEnv) (isVert : Bool)
    (slitPosition : ℤ) (slits : List Slit) (cols rows : ℕ) (t : ℝ)
    (h : cols = 0 ∨ rows = 0) :
    (frameV1 env isVert slitPosition slits cols rows t).flatten = [] ∧
    (frameV2 env isVert slitPosition slits cols rows t).flatten = [] := by
  rcases h with h | h <;> subst h <;>
    constructor <;> simp [frameV1, frameV2, List.flatten_eq_nil_iff]

/-- Witness for the degenerate-geometry theorem at 0 columns and 3 rows. -/
theorem empty_grid_renders_nothing_witness :
    ((0 : ℕ) = 0 ∨ (3 : ℕ) = 0) ∧
    (frameV1 ⟨fun _ => 0⟩ false 0 [] 0 3 0).flatten = [] ∧
    (frameV2 ⟨fun _ => 0⟩ false 0 [] 0 3 0).flatten = [] :=
  ⟨Or.inl rfl, (empty_grid_renders_nothing ⟨fun _ => 0⟩ false 0 [] 0 3 0 (Or.inl rfl)).1,
    (empty_grid_renders_nothing ⟨fun _ => 0⟩ false 0 [] 0 3 0 (Or.inl rfl)).2⟩

/-- C9: constructive interference. At clock value 0, at a cell whose cached
distances to the three sources are all the same value d with k·d an integer
multiple of 2π, the total amplitude is exactly three times the
single-source contribution at distance d, in both variants. -/
theorem constructive_interference (s₁ s₂ s₃ : Slit) (r c : ℕ) (d : ℝ)
    (h₁ : slitDistance s₁ r c = d) (h₂ : slitDistance s₂ r c = d)
    (h₃ : slitDistance s₃ r c = d) :
    (∀ m : ℤ, kV1 * d = 2 * Real.pi * m →
      totalAmplitudeV1 [s₁, s₂, s₃] r c 0 =
        3 * (Real.sin (kV1 * d - waveSpeedV1 * 0) / max 1 (d * 1.5))) ∧
    (∀ m : ℤ, kV2 * d = 2 * Real.pi * m →
      totalAmplitudeV2 [s₁, s₂, s₃] r c 0 =
        3 * (Real.sin (kV2 * d - waveSpeedV2 * 0) / max 1 d)) := by
  constructor <;> intro _ _ <;>
    simp [totalAmplitudeV1, totalAmplitudeV2, h₁, h₂, h₃] <;> ring

/-- Distance from the cell in row 0, column 40 to a slit at the origin. -/
lemma slitDistance_origin_forty : slitDistance ⟨0, 0⟩ 0 40 = 40 := by
  simp only [slitDistance]
  norm_num
  rw [show (1600 : ℝ) = 40 ^ 2 by norm_num]
  exact Real.sqrt_sq (by norm_num)

/-- Variant 1 phase at distance 40 is the full turn 6π. -/
lemma kV1_forty : kV1 * (40 : ℝ) = 2 * Real.pi * ((3 : ℤ) : ℝ) := by
  unfold kV1; push_cast; ring

/-- Variant 2 phase at distance 40 is the full turn 8π. -/
lemma kV2_forty : kV2 * (40 : ℝ) = 2 * Real.pi * ((4 : ℤ) : ℝ) := by
  unfold kV2; push_cast; ring

/-- Witness for the constructive-interference theorem: three coincident
sources at the origin and the cell in row 0, column 40, at distance 40. -/
theorem constructive_interference_witness :
    slitDistance ⟨0, 0⟩ 0 40 = 40 ∧
    kV1 * (40 : ℝ) = 2 * Real.pi * ((3 : ℤ) : ℝ) ∧
    kV2 * (40 : ℝ) = 2 * Real.pi * ((4 : ℤ) : ℝ) ∧
    totalAmplitudeV1 [⟨0, 0⟩, ⟨0, 0⟩, ⟨0, 0⟩] 0 40 0 =
      3 * (Real.sin (kV1 * 40 - waveSpeedV1 * 0) / max 1 ((40 : ℝ) * 1.5)) ∧
    totalAmplitudeV2 [⟨0, 0⟩, ⟨0, 0⟩, ⟨0, 0⟩] 0 40 0 =
      3 * (Real.sin (kV2 * 40 - waveSpeedV2 * 0) / max 1 (40 : ℝ)) :=
  ⟨slitDistance_origin_forty, kV1_forty, kV2_forty,
    (constructive_interference ⟨0, 0⟩ ⟨0, 0⟩ ⟨0, 0⟩ 0 40 40
      slitDistance_origin_forty slitDistance_origin_forty slitDistance_origin_forty).1
      3 kV1_forty,
    (constructive_interference ⟨0, 0⟩ ⟨0, 0⟩ ⟨0, 0⟩ 0 40 40
      slitDistance_origin_forty slitDistance_origin_forty slitDistance_origin_forty).2
      4 kV2_forty⟩

/-- C10: a cell with total amplitude exactly 0 takes the non-positive hue
branch (hue 30 in variant 1, hue 0 in variant 2), because the hue test is
the strict comparison of the amplitude with 0. -/
theorem zero_amplitude_hue (env : HostEnv) (slits : List Slit) (r c : ℕ) (t : ℝ) :
    (totalAmplitudeV1 slits r c t = 0 →
      hueOf (fieldCellV1 env slits r c t) = some 30) ∧
    (totalAmplitudeV2 slits r c t = 0 →
      hueOf (fieldCellV2 env slits r c t) = some 0) := by
  constructor <;> intro h <;> simp [fieldCellV1, fieldCellV2, hueOf, h]

/-- Amplitude of variant 1 vanishes at distance 40 from three coincident
origin sources at clock value 0. -/
lemma totalAmplitudeV1_origin_forty :
    totalAmplitudeV1 [⟨0, 0⟩, ⟨0, 0⟩, ⟨0, 0⟩] 0 40 0 = 0 := by
  have hs : Real.sin (kV1 * 40) = 0 := by
    rw [kV1_forty, show 2 * Real.pi * ((3 : ℤ) : ℝ) = ((6 : ℤ) : ℝ) * Real.pi by push_cast; ring]
    exact Real.sin_int_mul_pi 6
  simp [totalAmplitudeV1, slitDistance_origin_forty, hs]

/-- Amplitude of variant 2 vanishes at distance 40 from three coincident
origin sources at clock value 0. -/
lemma totalAmplitudeV2_origin_forty :
    totalAmplitudeV2 [⟨0, 0⟩, ⟨0, 0⟩, ⟨0, 0⟩] 0 40 0 = 0 := by
  have hs : Real.sin (kV2 * 40) = 0 := by
    rw [kV2_forty, show 2 * Real.pi * ((4 : ℤ) : ℝ) = ((8 : ℤ) : ℝ) * Real.pi by push_cast; ring]
    exact Real.sin_int_mul_pi 8
  simp [totalAmplitudeV2, slitDistance_origin_forty, hs]

/-- Witness for the zero-amplitude hue theorem at a concrete cell whose
amplitude is exactly 0 in both variants. -/
theorem zero_amplitude_hue_witness :
    totalAmplitudeV1 [⟨0, 0⟩, ⟨0, 0⟩, ⟨0, 0⟩] 0 40 0 = 0 ∧
    hueOf (fieldCellV1 ⟨fun _ => 0⟩ [⟨0, 0⟩, ⟨0, 0⟩, ⟨0, 0⟩] 0 40 0) = some 30 ∧
    totalAmplitudeV2 [⟨0, 0⟩, ⟨0, 0⟩, ⟨0, 0⟩] 0 40 0 = 0 ∧
    hueOf (fieldCellV2 ⟨fun _ => 0⟩ [⟨0, 0⟩, ⟨0, 0⟩, ⟨0, 0⟩] 0 40 0) = some 0 :=
  ⟨totalAmplitudeV1_origin_forty,
    (zero_amplitude_hue ⟨fun _ => 0⟩ [⟨0, 0⟩, ⟨0, 0⟩, ⟨0, 0⟩] 0 40 0).1
      totalAmplitudeV1_origin_forty,
    totalAmplitudeV2_origin_forty,
    (zero_amplitude_hue ⟨fun _ => 0⟩ [⟨0, 0⟩, ⟨0, 0⟩, ⟨0, 0⟩] 0 40 0).2
      totalAmplitudeV2_origin_forty⟩

/-- C3 counterexample: in variant 1's mobile layout with 25 columns and 9
rows, the first slit's x coordinate is floor(25/2) − 0.3·25 = 12 − 7.5 =
4.5, which is not an integer. -/
theorem slit_integer_coords_counterexample :
    ¬ ∃ n : ℤ, ((slitsV1Mobile 25 9).headI).x = (n : ℚ) := by
  rintro ⟨n, hn⟩
  have hx : ((slitsV1Mobile 25 9).headI).x = 9 / 2 := by
    norm_num [slitsV1Mobile]
  rw [hx] at hn
  have h9 : (9 : ℚ) = 2 * (n : ℚ) := by
    field_simp at hn
    linarith
  have h9z : (9 : ℤ) = 2 * n := by exact_mod_cast h9
  omega

/-- Sum of the floors of m − s and m + s differs from twice the floor of m
by at most one. -/
lemma floor_add_floor_near (m s : ℚ) :
    |⌊m - s⌋ + ⌊m + s⌋ - 2 * ⌊m⌋| ≤ 1 := by
  have h1 := Int.floor_le (m - s)
  have h2 := Int.floor_le (m + s)
  have h3 := Int.lt_floor_add_one (m - s)
  have h4 := Int.lt_floor_add_one (m + s)
  have h5 := Int.floor_le m
  have h6 := Int.lt_floor_add_one m
  have hub : ⌊m - s⌋ + ⌊m + s⌋ - 2 * ⌊m⌋ < 2 := by
    have hq : ((⌊m - s⌋ + ⌊m + s⌋ - 2 * ⌊m⌋ : ℤ) : ℚ) < 2 := by push_cast; linarith
    exact_mod_cast hq
  have hlb : (-2 : ℤ) < ⌊m - s⌋ + ⌊m + s⌋ - 2 * ⌊m⌋ := by
    have hq : (-2 : ℚ) < ((⌊m - s⌋ + ⌊m + s⌋ - 2 * ⌊m⌋ : ℤ) : ℚ) := by push_cast; linarith
    exact_mod_cast hq
  rw [abs_le]
  omega

/-- C3 amended: in every layout the three sources share the wall coordinate
and are derived from the grid-center transverse coordinate with offsets
±0.3 of the transverse extent. In variant 1's mobile layout the two outer
x coordinates keep the exact fractional offsets, hence are exactly
symmetric about the integer center column but need not be integers; in the
other three layouts every coordinate is floored to an integer, and the two
outer offsets from the center source agree to within one cell. -/
theorem slit_geometry_amended (cols rows : ℕ) :
    (((slitsV1Mobile cols rows).getD 1 default).x -
        ((slitsV1Mobile cols rows).getD 0 default).x = 0.3 * cols ∧
      ((slitsV1Mobile cols rows).getD 2 default).x -
        ((slitsV1Mobile cols rows).getD 1 default).x = 0.3 * cols ∧
      (∃ n : ℤ, ((slitsV1Mobile cols rows).getD 1 default).x = (n : ℚ)) ∧
      (∀ s ∈ slitsV1Mobile cols rows, ∃ n : ℤ, s.y = (n : ℚ))) ∧
    ((∀ s ∈ slitsV1Desktop cols rows,
        (∃ n : ℤ, s.x = (n : ℚ)) ∧ ∃ n : ℤ, s.y = (n : ℚ)) ∧
      |((slitsV1Desktop cols rows).getD 0 default).y +
          ((slitsV1Desktop cols rows).getD 2 default).y -
          2 * ((slitsV1Desktop cols rows).getD 1 default).y| ≤ 1) ∧
    ((∀ s ∈ slitsV2Vertical cols rows,
        (∃ n : ℤ, s.x = (n : ℚ)) ∧ ∃ n : ℤ, s.y = (n : ℚ)) ∧
      |((slitsV2Vertical cols rows).getD 0 default).x +
          ((slitsV2Vertical cols rows).getD 2 default).x -
          2 * ((slitsV2Vertical cols rows).getD 1 default).x| ≤ 1) ∧
    ((∀ s ∈ slitsV2Horizontal cols rows,
        (∃ n : ℤ, s.x = (n : ℚ)) ∧ ∃ n : ℤ, s.y = (n : ℚ)) ∧
      |((slitsV2Horizontal cols rows).getD 0 default).y +
          ((slitsV2Horizontal cols rows).getD 2 default).y -
          2 * ((slitsV2Horizontal cols rows).getD 1 default).y| ≤ 1) := by
  refine ⟨⟨?_, ?_, ?_, ?_⟩, ⟨?_, ?_⟩, ⟨?_, ?_⟩, ⟨?_, ?_⟩⟩
  · simp [slitsV1Mobile]
  · simp [slitsV1Mobile]
  · exact ⟨⌊(cols : ℚ) / 2⌋, by simp [slitsV1Mobile]⟩
  · intro s hs
    simp [slitsV1Mobile] at hs
    rcases hs with rfl | rfl | rfl <;> exact ⟨⌊(rows : ℚ) / 3⌋, rfl⟩
  · intro s hs
    simp [slitsV1Desktop] at hs
    rcases hs with rfl | rfl | rfl <;> exact ⟨⟨_, rfl⟩, _, rfl⟩
  · have h := floor_add_floor_near ((rows : ℚ) / 2) (0.3 * rows)
    have e0 : ((slitsV1Desktop cols rows).getD 0 default).y =
        ((⌊(rows : ℚ) / 2 - 0.3 * rows⌋ : ℤ) : ℚ) := rfl
    have e1 : ((slitsV1Desktop cols rows).getD 1 default).y =
        ((⌊(rows : ℚ) / 2⌋ : ℤ) : ℚ) := rfl
    have e2 : ((slitsV1Desktop cols rows).getD 2 default).y =
        ((⌊(rows : ℚ) / 2 + 0.3 * rows⌋ : ℤ) : ℚ) := rfl
    rw [e0, e1, e2]
    exact_mod_cast h
  · intro s hs
    simp [slitsV2Vertical] at hs
    rcases hs with rfl | rfl | rfl <;> exact ⟨⟨_, rfl⟩, _, rfl⟩
  · have h := floor_add_floor_near ((cols : ℚ) / 2) (0.3 * cols)
    have e0 : ((slitsV2Vertical cols rows).getD 0 default).x =
        ((⌊(cols : ℚ) / 2 - 0.3 * cols⌋ : ℤ) : ℚ) := rfl
    have e1 : ((slitsV2Vertical cols rows).getD 1 default).x =
        ((⌊(cols : ℚ) / 2⌋ : ℤ) : ℚ) := rfl
    have e2 : ((slitsV2Vertical cols rows).getD 2 default).x =
        ((⌊(cols : ℚ) / 2 + 0.3 * cols⌋ : ℤ) : ℚ) := rfl
    rw [e0, e1, e2]
    exact_mod_cast h
  · intro s hs
    simp [slitsV2Horizontal] at hs
    rcases hs with rfl | rfl | rfl <;> exact ⟨⟨_, rfl⟩, _, rfl⟩
  · have h := floor_add_floor_near ((rows : ℚ) / 2) (0.3 * rows)
    have e0 : ((slitsV2Horizontal cols rows).getD 0 default).y =
        ((⌊(rows : ℚ) / 2 - 0.3 * rows⌋ : ℤ) : ℚ) := rfl
    have e1 : ((slitsV2Horizontal cols rows).getD 1 default).y =
        ((⌊(rows : ℚ) / 2⌋ : ℤ) : ℚ) := rfl
    have e2 : ((slitsV2Horizontal cols rows).getD 2 default).y =
        ((⌊(rows : ℚ) / 2 + 0.3 * rows⌋ : ℤ) : ℚ) := rfl
    rw [e0, e1, e2]
    exact_mod_cast h

end WaveSpec
